import Mathlib

/-!
Verification of the WebRTC multi-player room session protocol
(`src/App.tsx`, `src/types.ts`).

The React component `App` is embedded as a pure state type `AppState`
(the `useState` hooks plus the `connectionsRef` link registry) together
with one Lean function per event handler.  Each handler returns the next
state paired with the ordered list of externally visible `Action`s it
performs (sends into links, link closes, outbound connects, and the
host's own `setPlayers` roster commit), in the order the source executes
them.  The link registry `Map<string, DataConnection>` is embedded as
its list of keys in insertion order (JS `Map` iteration order); the
`DataConnection` values themselves are opaque handles, so a send into
the connection keyed by `k` is recorded as `Action.send k message`.
-/

namespace WebRTCRoom

/-- `ConnectionStatus` from `src/types.ts`. -/
inductive ConnectionStatus
  | INITIALIZING
  | CONNECTING
  | CONNECTED
  | DISCONNECTED
  | ERROR
  | IN_ROOM
  deriving DecidableEq

/-- The severity tag of a `LogEntry` (`LogEntry['type']` in `src/types.ts`). -/
inductive LogType
  | info
  | error
  | success
  | system
  deriving DecidableEq

/-- `LogEntry` from `src/types.ts`. -/
structure LogEntry where
  timestamp : String
  message : String
  type : LogType
  deriving DecidableEq

/-- `PlayerRole` from `src/types.ts`. -/
inductive PlayerRole
  | host
  | client
  deriving DecidableEq

/-- `Player` from `src/types.ts`. -/
structure Player where
  id : String
  role : PlayerRole
  deriving DecidableEq

/-- `GameMessage` from `src/types.ts`: a kind tag string plus an untyped
`payload : any`.  The payload is embedded flattened: each field a payload
of some kind ever carries in the source is a field here, and a message of
a given kind only uses the fields its kind reads/writes. -/
structure GameMessage where
  type : String
  senderId : Option String
  text : String
  player : Option Player
  playersPayload : List Player
  leftId : String
  deriving DecidableEq

/-- A `CHAT_MESSAGE` as built by `handleSendMessage`: payload `{ text }`,
with `senderId` present only once someone stamps it. -/
def mkChat (senderId : Option String) (text : String) : GameMessage :=
  ⟨"CHAT_MESSAGE", senderId, text, none, [], ""⟩

/-- A `WELCOME` message: payload `{ players }` (App.tsx line 181). -/
def mkWelcome (players : List Player) : GameMessage :=
  ⟨"WELCOME", none, "", none, players, ""⟩

/-- A `PLAYER_JOINED` message: payload is the new `Player` (App.tsx line 184). -/
def mkPlayerJoined (p : Player) : GameMessage :=
  ⟨"PLAYER_JOINED", none, "", some p, [], ""⟩

/-- A `PLAYER_LEFT` message: payload `{ id }` (App.tsx lines 97-100). -/
def mkPlayerLeft (id : String) : GameMessage :=
  ⟨"PLAYER_LEFT", none, "", none, [], id⟩

/-- The `ROOM_FULL` rejection message: payload `{}` (App.tsx line 167). -/
def roomFullMessage : GameMessage :=
  ⟨"ROOM_FULL", none, "", none, [], ""⟩

/-- The component state of `App`: the `useState` hooks (`status`,
`peerId`, `logs`, `role`, `players`, `roomCode`; the chat input box
`message` carries no protocol state and is omitted) plus the key set of
`connectionsRef.current`, in insertion order. -/
structure AppState where
  status : ConnectionStatus
  peerId : String
  logs : List LogEntry
  role : Option PlayerRole
  players : List Player
  roomCode : String
  connections : List String
  deriving DecidableEq

/-- An externally visible effect of an event handler, in execution order:
`conn.send`, `conn.close`, `peer.connect`, and — recorded so ordering
against sends is provable — the host committing its own roster via
`setPlayers`. -/
inductive Action
  | send (target : String) (message : GameMessage)
  | closeLink (target : String)
  | connect (code : String)
  | setPlayersAction (players : List Player)
  deriving DecidableEq

/-- `MAX_PLAYERS` (App.tsx line 8). -/
def MAX_PLAYERS : Nat := 6

/-- The list update performed by `addLog` (App.tsx line 44):
`[{timestamp, message, type}, ...prev].slice(0, 100)` — prepend the new
entry, keep the first 100. -/
def addLogList (entry : LogEntry) (logs : List LogEntry) : List LogEntry :=
  (entry :: logs).take 100

/-- `addLog` (App.tsx lines 41-45) applied to the component state; the
wall-clock `toLocaleTimeString()` value is the explicit `now` argument. -/
def addLog (s : AppState) (now : String) (message : String) (type : LogType) : AppState :=
  { s with logs := addLogList ⟨now, message, type⟩ s.logs }

/-- `Map.set` on the registry's key list: JS `Map.set` keeps the original
position of an existing key and appends a new one. -/
def mapSet (key : String) (m : List String) : List String :=
  if key ∈ m then m else m ++ [key]

/-- `Map.delete` on the registry's key list. -/
def mapDelete (key : String) (m : List String) : List String :=
  m.filter (fun k => k != key)

/-- The fan-out loop of `broadcastMessage` (App.tsx lines 49-54):
`connectionsRef.current.forEach((conn, peerId) => { if (peerId !== senderId) conn.send(message); })`
— one send per registered key different from the excluded sender. -/
def broadcastSends (connections : List String) (message : GameMessage) (senderId : Option String) : List Action :=
  connections.filterMap fun pid =>
    if some pid = senderId then none else some (Action.send pid message)

/-- `broadcastMessage` (App.tsx lines 47-55): log, then fan out to every
registered link except the optional excluded sender. -/
def broadcastMessage (s : AppState) (now : String) (message : GameMessage) (senderId : Option String) : AppState × List Action :=
  (addLog s now ("Broadcasting message type: " ++ message.type) LogType.system,
   broadcastSends s.connections message senderId)

/-- The same fan-out loop with each individual send's outcome made
explicit.  Per the Link boundary (spec section 6 and the peerjs
`DataConnection.send` contract), a send into a just-closed link fails by
emitting a per-link error event, not by raising an exception into the
loop; `ok pid` says whether the send into link `pid` succeeds, and the
loop records the attempt and its outcome for every non-excluded link. -/
def broadcastOutcomes (connections : List String) (senderId : Option String) (ok : String → Bool) : List (String × Bool) :=
  connections.filterMap fun pid =>
    if some pid = senderId then none else some (pid, ok pid)

/-- `handleLeaveRoom` (App.tsx lines 57-65): close every link, clear the
registry, clear role/players/roomCode, return to lobby status. -/
def handleLeaveRoom (s : AppState) (now : String) : AppState × List Action :=
  let s1 := addLog s now "Leaving the room." LogType.system
  ({ s1 with connections := [], role := none, players := [],
             roomCode := "", status := ConnectionStatus.CONNECTED },
   s1.connections.map Action.closeLink)

/-- `handleDataReceived` (App.tsx lines 67-81): on the host, stamp a chat
message's `payload.senderId` with the sending link's peer id, log, and
re-broadcast excluding the sender; chat text also goes to the host's own
log. -/
def handleDataReceived (s : AppState) (now : String) (receivedMessage : GameMessage) (fromPeerId : String) : AppState × List Action :=
  if s.role = some PlayerRole.host then
    let message :=
      if receivedMessage.type = "CHAT_MESSAGE" then
        { receivedMessage with senderId := some fromPeerId }
      else receivedMessage
    let s1 := addLog s now ("Host received " ++ message.type ++ " from " ++ fromPeerId ++ ". Broadcasting.") LogType.system
    let r := broadcastMessage s1 now message (some fromPeerId)
    let s2 :=
      if message.type = "CHAT_MESSAGE" then
        addLog r.1 now (fromPeerId.take 6 ++ ": " ++ message.text) LogType.info
      else r.1
    (s2, r.2)
  else (s, [])

/-- The `conn.on('close')` handler installed by `setupConnectionListeners`
(App.tsx lines 89-107): on the host, delete the link registry entry, drop
the departed player from the roster, and — only when a player was
actually found — broadcast `PLAYER_LEFT`; on a client, return to the
lobby. -/
def closeEvent (s : AppState) (now : String) (remote : String) : AppState × List Action :=
  let s0 := addLog s now ("Connection with " ++ remote ++ " closed.") LogType.system
  if s0.role = some PlayerRole.host then
    let s1 := { s0 with connections := mapDelete remote s0.connections }
    let playerLeft := s1.players.find? (fun p => p.id == remote)
    let remainingPlayers := s1.players.filter (fun p => p.id != remote)
    let s2 := { s1 with players := remainingPlayers }
    match playerLeft with
    | some _ => broadcastMessage s2 now (mkPlayerLeft remote) none
    | none => (s2, [])
  else
    let s3 := addLog s0 now "Disconnected from host. Returning to lobby." LogType.error
    handleLeaveRoom s3 now

/-- The `peer.on('connection')` handler together with the candidate
link's `open` callback (App.tsx lines 158-190), as one admit step.  A
non-host closes the inbound link; a full room (`players.length >=
MAX_PLAYERS`) sends `ROOM_FULL` on the candidate link once it opens and
closes it after the 100 ms grace `setTimeout`, leaving the roster and
registry untouched; otherwise the opened link is registered, the joiner
is sent the `WELCOME` snapshot, the other links are notified with
`PLAYER_JOINED`, and only then does the host commit `setPlayers`. -/
def connectionEvent (s : AppState) (now : String) (remote : String) : AppState × List Action :=
  if s.role ≠ some PlayerRole.host then
    (addLog s now ("Incoming connection from " ++ remote ++ " ignored as not a host.") LogType.system,
     [Action.closeLink remote])
  else if s.players.length ≥ MAX_PLAYERS then
    (addLog s now ("Connection from " ++ remote ++ " rejected. Room is full.") LogType.system,
     [Action.send remote roomFullMessage, Action.closeLink remote])
  else
    let s1 := addLog s now ("Incoming connection request from " ++ remote) LogType.info
    let s2 := addLog s1 now ("Data connection established with client: " ++ remote) LogType.success
    let s3 := { s2 with connections := mapSet remote s2.connections }
    let newPlayer : Player := ⟨remote, PlayerRole.client⟩
    let updatedPlayers := s3.players ++ [newPlayer]
    let r := broadcastMessage s3 now (mkPlayerJoined newPlayer) (some remote)
    ({ r.1 with players := updatedPlayers },
     Action.send remote (mkWelcome updatedPlayers) :: (r.2 ++ [Action.setPlayersAction updatedPlayers]))

/-- The `peer.on('error')` handler (App.tsx lines 141-149): a
`peer-unavailable` error only logs and clears the role (the failed join
attempt is abandoned); every other error kind sets the session status to
`ERROR`. -/
def peerErrorEvent (s : AppState) (now : String) (errType errMessage : String) : AppState :=
  let s1 := addLog s now ("PeerJS error: " ++ errType ++ " - " ++ errMessage) LogType.error
  if errType = "peer-unavailable" then
    let s2 := addLog s1 now ("Could not find peer with code: " ++ s1.roomCode ++ ". Please check the code and try again.") LogType.error
    { s2 with role := none }
  else
    { s1 with status := ConnectionStatus.ERROR }

/-- `handleCreateRoom` (App.tsx lines 198-204). -/
def handleCreateRoom (s : AppState) (now : String) : AppState :=
  let s1 := { s with role := some PlayerRole.host,
                     players := [⟨s.peerId, PlayerRole.host⟩],
                     status := ConnectionStatus.IN_ROOM }
  addLog s1 now ("Room created. You are the host. Room Code: " ++ s.peerId) LogType.success

/-- `handleJoinRoom` (App.tsx lines 206-261), up to the synchronous
`peer.connect` call; the `peerRef.current` handle and its `disconnected`
flag are the explicit booleans `peerInitialized` and `peerDisconnected`.
The three guard branches (empty code, no usable peer, own room code)
only log an error and return without opening a link. -/
def handleJoinRoom (s : AppState) (now : String) (peerInitialized peerDisconnected : Bool) : AppState × List Action :=
  let codeToJoin := s.roomCode.trim
  if codeToJoin = "" then
    (addLog s now "Please enter a room code." LogType.error, [])
  else if !peerInitialized || peerDisconnected then
    (addLog s now "PeerJS not initialized or disconnected." LogType.error, [])
  else if codeToJoin = s.peerId then
    (addLog s now "You cannot join your own room." LogType.error, [])
  else
    let s1 := addLog s now ("Attempting to join room with code: " ++ codeToJoin) LogType.info
    ({ s1 with role := some PlayerRole.client }, [Action.connect codeToJoin])

/-- The client-side `conn.on('data')` switch installed by
`handleJoinRoom` (App.tsx lines 234-260).  A `PLAYER_JOINED` whose
payload carries no player is left as a no-op (the source would push the
untyped `undefined`); no claim depends on that branch.  The `ROOM_FULL`
branch closes the host link (keyed by the joined room code) and leaves
the room.  The `default` branch only logs the unhandled kind. -/
def clientDataReceived (s : AppState) (now : String) (message : GameMessage) : AppState × List Action :=
  if message.type = "WELCOME" then
    let s1 := { s with players := message.playersPayload }
    (addLog s1 now "Successfully joined room and received player list." LogType.success, [])
  else if message.type = "PLAYER_JOINED" then
    match message.player with
    | some p =>
      let s1 := { s with players := s.players ++ [p] }
      (addLog s1 now ("Player " ++ p.id.take 6 ++ " has joined.") LogType.info, [])
    | none => (s, [])
  else if message.type = "PLAYER_LEFT" then
    let s1 := { s with players := s.players.filter (fun p => p.id != message.leftId) }
    (addLog s1 now ("Player " ++ message.leftId.take 6 ++ " has left.") LogType.info, [])
  else if message.type = "CHAT_MESSAGE" then
    (addLog s now ((message.senderId.getD "").take 6 ++ ": " ++ message.text) LogType.info, [])
  else if message.type = "ROOM_FULL" then
    let s1 := addLog s now "Could not join: The room is full." LogType.error
    let r := handleLeaveRoom s1 now
    (r.1, Action.closeLink s.roomCode :: r.2)
  else
    (addLog s now ("Received unhandled message type: " ++ message.type) LogType.system, [])

/-- A fresh lobby state after `peer.on('open')`: connected to the
directory with identifier `"h"`, no role, empty roster and registry. -/
def lobbyState : AppState :=
  ⟨ConnectionStatus.CONNECTED, "h", [], none, [], "", []⟩

/-- Fold a sequence of inbound connection (admit) events over a state. -/
def runConnectionEvents (s : AppState) (now : String) (remotes : List String) : AppState :=
  remotes.foldl (fun st r => (connectionEvent st now r).1) s

/-- A host in a room with two clients joined: the sample state used by
the concrete witnesses. -/
def sampleHostState : AppState :=
  ⟨ConnectionStatus.IN_ROOM, "h", [], some PlayerRole.host,
   [⟨"h", PlayerRole.host⟩, ⟨"a", PlayerRole.client⟩, ⟨"b", PlayerRole.client⟩],
   "", ["a", "b"]⟩

lemma broadcastSends_eq_map (connections : List String) (message : GameMessage) (senderId : Option String) :
    broadcastSends connections message senderId =
      (connections.filter (fun pid => !(some pid == senderId))).map
        (fun pid => Action.send pid message) := by
  induction connections with
  | nil => rfl
  | cons c cs ih =>
    by_cases h : some c = senderId <;>
      simp [broadcastSends, List.filterMap_cons, List.filter_cons, h, ih, broadcastSends] <;>
      simpa [broadcastSends] using ih

lemma broadcastOutcomes_targets (connections : List String) (senderId : Option String) (ok : String → Bool) :
    (broadcastOutcomes connections senderId ok).map Prod.fst =
      connections.filter (fun pid => !(some pid == senderId)) := by
  induction connections with
  | nil => rfl
  | cons c cs ih =>
    by_cases h : some c = senderId <;>
      simp [broadcastOutcomes, List.filterMap_cons, List.filter_cons, h] <;>
      simpa [broadcastOutcomes] using ih

/-- C10: every `addLog` prepends the new entry and truncates to 100, so the
log never exceeds 100 entries and stays newest-first; appending to a log
already holding 100 entries yields the new entry followed by the previous
log minus its last (oldest) entry, the other 99 unchanged, still of
length 100. -/
theorem C10_bounded_log (entry : LogEntry) (logs : List LogEntry) :
    addLogList entry logs = entry :: logs.take 99 ∧
    (addLogList entry logs).length ≤ 100 ∧
    (logs.length = 100 →
      addLogList entry logs = entry :: logs.dropLast ∧
      (addLogList entry logs).length = 100) := by
  refine ⟨rfl, ?_, fun h => ⟨?_, ?_⟩⟩
  · simp [addLogList]
  · simp [addLogList, List.dropLast_eq_take, h]
  · simp [addLogList, h]

/-- C10 witness: concrete instance at a log of exactly 100 entries. -/
theorem C10_bounded_log_witness :
    addLogList ⟨"t", "new", LogType.info⟩ (List.replicate 100 ⟨"t", "old", LogType.info⟩) =
      ⟨"t", "new", LogType.info⟩ :: (List.replicate 100 (⟨"t", "old", LogType.info⟩ : LogEntry)).dropLast ∧
    (addLogList ⟨"t", "new", LogType.info⟩ (List.replicate 100 ⟨"t", "old", LogType.info⟩)).length = 100 :=
  (C10_bounded_log ⟨"t", "new", LogType.info⟩ (List.replicate 100 ⟨"t", "old", LogType.info⟩)).2.2
    (by simp)

/-- C6: a `peer-unavailable` directory error never errorizes the session —
status, roster and registry are untouched and only the role (the
in-flight join attempt) is cleared — while any other directory error
kind transitions the session status to `ERROR`. -/
theorem C6_error_discrimination (s : AppState) (now errType errMessage : String) :
    (errType = "peer-unavailable" →
      (peerErrorEvent s now errType errMessage).status = s.status ∧
      (peerErrorEvent s now errType errMessage).role = none ∧
      (peerErrorEvent s now errType errMessage).players = s.players ∧
      (peerErrorEvent s now errType errMessage).connections = s.connections) ∧
    (errType ≠ "peer-unavailable" →
      (peerErrorEvent s now errType errMessage).status = ConnectionStatus.ERROR ∧
      (peerErrorEvent s now errType errMessage).role = s.role) := by
  constructor
  · intro h
    simp [peerErrorEvent, addLog, h]
  · intro h
    simp [peerErrorEvent, addLog, h]

/-- C6 witness: from the lobby, `peer-unavailable` keeps the lobby status
and clears the role; a `network` error sets status `ERROR`. -/
theorem C6_error_discrimination_witness :
    (peerErrorEvent lobbyState "t" "peer-unavailable" "m").status = lobbyState.status ∧
    (peerErrorEvent lobbyState "t" "peer-unavailable" "m").role = none ∧
    (peerErrorEvent lobbyState "t" "network" "m").status = ConnectionStatus.ERROR :=
  ⟨((C6_error_discrimination lobbyState "t" "peer-unavailable" "m").1 rfl).1,
   ((C6_error_discrimination lobbyState "t" "peer-unavailable" "m").1 rfl).2.1,
   ((C6_error_discrimination lobbyState "t" "network" "m").2 (by decide)).1⟩

/-- C5: the fan-out attempts a send into every non-excluded link of the
registry regardless of which individual sends fail — the attempted
target list is independent of the per-link outcome oracle, equals the
whole registry minus the excluded sender, and coincides with the targets
of `broadcastMessage`'s sends; the loop is a total function, so no
per-link failure escapes it. -/
theorem C5_fanout_isolation (connections : List String) (senderId : Option String)
    (ok1 ok2 : String → Bool) (message : GameMessage) :
    (broadcastOutcomes connections senderId ok1).map Prod.fst =
      (broadcastOutcomes connections senderId ok2).map Prod.fst ∧
    (broadcastOutcomes connections senderId ok1).map Prod.fst =
      connections.filter (fun pid => !(some pid == senderId)) ∧
    broadcastSends connections message senderId =
      ((broadcastOutcomes connections senderId ok1).map Prod.fst).map
        (fun pid => Action.send pid message) := by
  refine ⟨?_, broadcastOutcomes_targets connections senderId ok1, ?_⟩
  · rw [broadcastOutcomes_targets, broadcastOutcomes_targets]
  · rw [broadcastOutcomes_targets, broadcastSends_eq_map]

/-- C3: a broadcast excluding identifier `X` never sends to the link
registered under `X`, and sends to every other registered link exactly
once (registry keys are unique, being keys of a JS `Map`). -/
theorem C3_exclusion (connections : List String) (message : GameMessage) (X : String)
    (hnd : connections.Nodup) :
    (∀ m : GameMessage, Action.send X m ∉ broadcastSends connections message (some X)) ∧
    (∀ y ∈ connections, y ≠ X →
      (broadcastSends connections message (some X)).count (Action.send y message) = 1) := by
  constructor
  · intro m hmem
    rw [broadcastSends_eq_map] at hmem
    obtain ⟨pid, hpid, heq⟩ := List.mem_map.mp hmem
    obtain ⟨hmem2, hne⟩ := List.mem_filter.mp hpid
    obtain ⟨h1, h2⟩ := Action.send.inj heq
    subst h1
    simp at hne
  · intro y hy hyX
    rw [broadcastSends_eq_map]
    have hinj : Function.Injective (fun pid => Action.send pid message) := by
      intro a b hab
      simpa using hab
    have hcount := List.count_map_of_injective
      (connections.filter (fun pid => !(some pid == some X))) _ hinj y
    rw [hcount]
    refine List.count_eq_one_of_mem (hnd.filter _) ?_
    rw [List.mem_filter]
    exact ⟨hy, by simp [hyX]⟩

/-- C3 witness: registry `["a", "b", "x"]`, exclusion of `"x"`. -/
theorem C3_exclusion_witness :
    (∀ m : GameMessage, Action.send "x" m ∉ broadcastSends ["a", "b", "x"] (mkChat none "hi") (some "x")) ∧
    (∀ y ∈ (["a", "b", "x"] : List String), y ≠ "x" →
      (broadcastSends ["a", "b", "x"] (mkChat none "hi") (some "x")).count
        (Action.send y (mkChat none "hi")) = 1) :=
  C3_exclusion ["a", "b", "x"] (mkChat none "hi") "x" (by decide)

lemma mem_broadcastSends (connections : List String) (message : GameMessage) (X : String) (a : Action) :
    a ∈ broadcastSends connections message (some X) ↔
      ∃ pid, pid ∈ connections ∧ pid ≠ X ∧ a = Action.send pid message := by
  rw [broadcastSends_eq_map]
  constructor
  · intro h
    obtain ⟨pid, hpid, rfl⟩ := List.mem_map.mp h
    obtain ⟨h1, h2⟩ := List.mem_filter.mp hpid
    exact ⟨pid, h1, by simpa using h2, rfl⟩
  · rintro ⟨pid, h1, h2, rfl⟩
    exact List.mem_map.mpr ⟨pid, List.mem_filter.mpr ⟨h1, by simpa using h2⟩, rfl⟩

/-- C2: a chat message received by the host from link `fromPeerId` is
re-broadcast with its `senderId` overwritten to `fromPeerId` (whatever
the client self-reported) and its `text` untouched; the sends go to
exactly the registered links other than the sender. -/
theorem C2_chat_relay (s : AppState) (now fromPeerId : String) (m : GameMessage)
    (hrole : s.role = some PlayerRole.host) (hty : m.type = "CHAT_MESSAGE") :
    (handleDataReceived s now m fromPeerId).2 =
      broadcastSends s.connections { m with senderId := some fromPeerId } (some fromPeerId) ∧
    ({ m with senderId := some fromPeerId } : GameMessage).text = m.text ∧
    (∀ pid ∈ s.connections, pid ≠ fromPeerId →
      Action.send pid { m with senderId := some fromPeerId } ∈
        (handleDataReceived s now m fromPeerId).2) ∧
    (∀ a ∈ (handleDataReceived s now m fromPeerId).2, ∃ pid, pid ∈ s.connections ∧
      pid ≠ fromPeerId ∧ a = Action.send pid { m with senderId := some fromPeerId }) := by
  have hsends : (handleDataReceived s now m fromPeerId).2 =
      broadcastSends s.connections { m with senderId := some fromPeerId } (some fromPeerId) := by
    simp [handleDataReceived, broadcastMessage, addLog, hrole, hty]
  refine ⟨hsends, rfl, ?_, ?_⟩
  · intro pid hpid hne
    rw [hsends, mem_broadcastSends]
    exact ⟨pid, hpid, hne, rfl⟩
  · intro a ha
    rw [hsends, mem_broadcastSends] at ha
    exact ha

/-- C2 witness: the host relays a chat whose client self-reported the
spoofed sender `"z"`; the relayed copies carry sender `"a"` and the
verbatim text. -/
theorem C2_chat_relay_witness :
    (handleDataReceived sampleHostState "t" (mkChat (some "z") "hi") "a").2 =
      broadcastSends sampleHostState.connections
        { mkChat (some "z") "hi" with senderId := some "a" } (some "a") ∧
    ({ mkChat (some "z") "hi" with senderId := some "a" } : GameMessage).text =
      (mkChat (some "z") "hi").text ∧
    (∀ pid ∈ sampleHostState.connections, pid ≠ "a" →
      Action.send pid { mkChat (some "z") "hi" with senderId := some "a" } ∈
        (handleDataReceived sampleHostState "t" (mkChat (some "z") "hi") "a").2) ∧
    (∀ a ∈ (handleDataReceived sampleHostState "t" (mkChat (some "z") "hi") "a").2,
      ∃ pid, pid ∈ sampleHostState.connections ∧ pid ≠ "a" ∧
        a = Action.send pid { mkChat (some "z") "hi" with senderId := some "a" }) :=
  C2_chat_relay sampleHostState "t" "a" (mkChat (some "z") "hi") rfl rfl

/-- C8: a client receiving a message whose kind is outside the handled
set only appends the unhandled-kind log entry — players, role, status,
registry and room code are untouched and no action is performed. -/
theorem C8_unknown_kind (s : AppState) (now : String) (message : GameMessage)
    (h : message.type ∉ (["WELCOME", "PLAYER_JOINED", "PLAYER_LEFT", "CHAT_MESSAGE", "ROOM_FULL"] : List String)) :
    (clientDataReceived s now message).1 =
      { s with logs := (addLogList
          (⟨now, "Received unhandled message type: " ++ message.type, LogType.system⟩ : LogEntry) s.logs) } ∧
    (clientDataReceived s now message).2 = [] := by
  simp only [List.mem_cons, List.not_mem_nil, or_false, not_or] at h
  obtain ⟨h1, h2, h3, h4, h5⟩ := h
  constructor <;> simp [clientDataReceived, addLog, h1, h2, h3, h4, h5]

/-- A client in a room with its host: sample state for the witnesses. -/
def sampleClientState : AppState :=
  ⟨ConnectionStatus.IN_ROOM, "c", [], some PlayerRole.client,
   [⟨"h", PlayerRole.host⟩, ⟨"c", PlayerRole.client⟩], "h", ["h"]⟩

/-- C8 witness: a `GAME_UPDATE` message (declared in the codec but
unhandled by the client switch) only adds a log entry. -/
theorem C8_unknown_kind_witness :
    (clientDataReceived sampleClientState "t" ⟨"GAME_UPDATE", none, "", none, [], ""⟩).1 =
      { sampleClientState with logs := (addLogList
          (⟨"t", "Received unhandled message type: " ++ "GAME_UPDATE", LogType.system⟩ : LogEntry)
          sampleClientState.logs) } ∧
    (clientDataReceived sampleClientState "t" ⟨"GAME_UPDATE", none, "", none, [], ""⟩).2 = [] :=
  C8_unknown_kind sampleClientState "t" ⟨"GAME_UPDATE", none, "", none, [], ""⟩ (by decide)

/-- C9: when the (trimmed) entered room code equals the participant's own
directory identifier, `handleJoinRoom` refuses before opening any link:
no action is performed (in particular no `connect`) and the only state
change is one appended error log entry. -/
theorem C9_self_join_guard (s : AppState) (now : String) (pInit pDisc : Bool)
    (h : s.roomCode.trim = s.peerId) :
    (handleJoinRoom s now pInit pDisc).1.role = s.role ∧
    (handleJoinRoom s now pInit pDisc).1.players = s.players ∧
    (handleJoinRoom s now pInit pDisc).1.status = s.status ∧
    (handleJoinRoom s now pInit pDisc).1.connections = s.connections ∧
    (handleJoinRoom s now pInit pDisc).1.roomCode = s.roomCode ∧
    (handleJoinRoom s now pInit pDisc).2 = [] ∧
    ∃ e : LogEntry, e.type = LogType.error ∧
      (handleJoinRoom s now pInit pDisc).1.logs = addLogList e s.logs := by
  have key : ∃ msg, handleJoinRoom s now pInit pDisc = (addLog s now msg LogType.error, []) := by
    unfold handleJoinRoom
    by_cases he : s.roomCode.trim = ""
    · exact ⟨"Please enter a room code.", by simp [he]⟩
    · by_cases hp : (!pInit || pDisc) = true
      · exact ⟨"PeerJS not initialized or disconnected.", by simp [he, hp]⟩
      · refine ⟨"You cannot join your own room.", ?_⟩
        rw [h] at he
        simp [h, he, hp]
  obtain ⟨msg, hkey⟩ := key
  rw [hkey]
  exact ⟨rfl, rfl, rfl, rfl, rfl, rfl, ⟨now, msg, LogType.error⟩, rfl, rfl⟩

/-- One unfolding step of `Substring.takeWhileAux` when the head fails
the predicate. -/
lemma takeWhileAux_of_head_false (s : String) (stop : String.Pos) (p : Char → Bool)
    (i : String.Pos) (h : i < stop) (hp : p (s.get i) = false) :
    Substring.takeWhileAux s stop p i = i := by
  rw [Substring.takeWhileAux]
  simp [h, hp]

/-- One unfolding step of `Substring.takeRightWhileAux` when the last
character fails the predicate. -/
lemma takeRightWhileAux_of_last_false (s : String) (beg : String.Pos) (p : Char → Bool)
    (i : String.Pos) (h : beg < i) (hp : p (s.get (s.prev i)) = false) :
    Substring.takeRightWhileAux s beg p i = i := by
  rw [Substring.takeRightWhileAux]
  simp [h, hp]

lemma trim_h_eq : ("h" : String).trim = "h" := by
  rw [String.trim]
  show Substring.toString (Substring.trim ⟨"h", 0, ("h" : String).endPos⟩) = "h"
  rw [Substring.trim]
  rw [takeWhileAux_of_head_false "h" ("h" : String).endPos Char.isWhitespace 0 (by decide) (by decide)]
  rw [takeRightWhileAux_of_last_false "h" 0 Char.isWhitespace ("h" : String).endPos (by decide) (by decide)]
  decide

/-- A lobby participant who entered its own identifier as room code. -/
def selfJoinState : AppState :=
  ⟨ConnectionStatus.CONNECTED, "h", [], none, [], "h", []⟩

/-- C9 witness: joining with one's own code from the lobby changes
nothing but the log and performs no action. -/
theorem C9_self_join_guard_witness :
    (handleJoinRoom selfJoinState "t" true false).1.role = selfJoinState.role ∧
    (handleJoinRoom selfJoinState "t" true false).1.players = selfJoinState.players ∧
    (handleJoinRoom selfJoinState "t" true false).1.status = selfJoinState.status ∧
    (handleJoinRoom selfJoinState "t" true false).1.connections = selfJoinState.connections ∧
    (handleJoinRoom selfJoinState "t" true false).1.roomCode = selfJoinState.roomCode ∧
    (handleJoinRoom selfJoinState "t" true false).2 = [] ∧
    ∃ e : LogEntry, e.type = LogType.error ∧
      (handleJoinRoom selfJoinState "t" true false).1.logs = addLogList e selfJoinState.logs :=
  C9_self_join_guard selfJoinState "t" true false trim_h_eq

/-- C4: removal is idempotent on the host. Removing an identifier that is
in the roster broadcasts `PLAYER_LEFT` to the remaining links, and an
immediately repeated removal from the resulting state performs no send
at all (one participant-left broadcast, not two); removing an identifier
in neither roster nor registry leaves both unchanged and broadcasts
nothing. -/
theorem C4_remove_idempotent (s : AppState) (now X : String)
    (hrole : s.role = some PlayerRole.host) :
    ((∃ p ∈ s.players, p.id = X) →
      (closeEvent s now X).2 =
        broadcastSends (mapDelete X s.connections) (mkPlayerLeft X) none ∧
      (closeEvent (closeEvent s now X).1 now X).2 = []) ∧
    ((∀ p ∈ s.players, p.id ≠ X) → X ∉ s.connections →
      (closeEvent s now X).1.players = s.players ∧
      (closeEvent s now X).1.connections = s.connections ∧
      (closeEvent s now X).2 = []) := by
  constructor
  · rintro ⟨p, hp, hpid⟩
    have hfind : (s.players.find? (fun q => q.id == X)).isSome := by
      rw [List.find?_isSome]
      exact ⟨p, hp, by simp [hpid]⟩
    obtain ⟨q, hq⟩ := Option.isSome_iff_exists.mp hfind
    have hnone : ((s.players.filter (fun p => p.id != X)).find? (fun q => q.id == X)) = none := by
      rw [List.find?_eq_none]
      intro x hx
      have := (List.mem_filter.mp hx).2
      simpa using this
    constructor
    · simp [closeEvent, broadcastMessage, addLog, hrole, hq, mapDelete]
    · simp [closeEvent, broadcastMessage, addLog, hrole, hq, hnone, mapDelete]
  · intro habs hconn
    have hnone : (s.players.find? (fun q => q.id == X)) = none := by
      rw [List.find?_eq_none]
      intro x hx
      simpa using habs x hx
    have hfilter : s.players.filter (fun p => p.id != X) = s.players :=
      List.filter_eq_self.mpr (fun x hx => by simpa using habs x hx)
    have hconns : mapDelete X s.connections = s.connections := by
      unfold mapDelete
      refine List.filter_eq_self.mpr (fun k hk => ?_)
      simp only [bne_iff_ne, ne_eq]
      rintro rfl
      exact hconn hk
    refine ⟨?_, ?_, ?_⟩ <;> simp [closeEvent, addLog, hrole, hnone, hfilter, hconns]

/-- C4 witness: removing client `"a"` twice from the sample host state
broadcasts once then nothing; removing the absent `"z"` is a no-op. -/
theorem C4_remove_idempotent_witness :
    ((closeEvent sampleHostState "t" "a").2 =
      broadcastSends (mapDelete "a" sampleHostState.connections) (mkPlayerLeft "a") none ∧
     (closeEvent (closeEvent sampleHostState "t" "a").1 "t" "a").2 = []) ∧
    ((closeEvent sampleHostState "t" "z").1.players = sampleHostState.players ∧
     (closeEvent sampleHostState "t" "z").1.connections = sampleHostState.connections ∧
     (closeEvent sampleHostState "t" "z").2 = []) :=
  ⟨(C4_remove_idempotent sampleHostState "t" "a" rfl).1
      ⟨⟨"a", PlayerRole.client⟩, by decide, rfl⟩,
   (C4_remove_idempotent sampleHostState "t" "z" rfl).2 (by decide) (by decide)⟩

lemma broadcastSends_all_sends (connections : List String) (message : GameMessage)
    (senderId : Option String) :
    ∀ a ∈ broadcastSends connections message senderId, ∃ t, a = Action.send t message := by
  intro a ha
  obtain ⟨pid, hpid, hif⟩ := List.mem_filterMap.mp ha
  by_cases h : some pid = senderId
  · simp [h] at hif
  · simp only [h, if_false, Option.some.injEq, if_neg] at hif
    exact ⟨pid, hif.symm⟩

/-- C7: a successful admit first sends the `WELCOME` roster snapshot to
the joiner and the `PLAYER_JOINED` notifications to every other link,
and only then commits the host's own `setPlayers`: in the action trace
every element before the final one is a send, the final element is the
roster commit, and the committed roster equals the one in the `WELCOME`
snapshot just transmitted (which is also the resulting state's roster). -/
theorem C7_admit_ordering (s : AppState) (now remote : String)
    (hrole : s.role = some PlayerRole.host) (hcap : s.players.length < MAX_PLAYERS) :
    (connectionEvent s now remote).1.players = s.players ++ [⟨remote, PlayerRole.client⟩] ∧
    (connectionEvent s now remote).2 =
      Action.send remote (mkWelcome (s.players ++ [⟨remote, PlayerRole.client⟩]))
        :: (broadcastSends (mapSet remote s.connections)
              (mkPlayerJoined ⟨remote, PlayerRole.client⟩) (some remote)
            ++ [Action.setPlayersAction (s.players ++ [⟨remote, PlayerRole.client⟩])]) ∧
    (∀ a ∈ (connectionEvent s now remote).2.dropLast, ∃ t m, a = Action.send t m) ∧
    (connectionEvent s now remote).2.getLast? =
      some (Action.setPlayersAction (s.players ++ [⟨remote, PlayerRole.client⟩])) := by
  have hne : ¬ s.players.length ≥ MAX_PLAYERS := by omega
  have hmain : (connectionEvent s now remote).2 =
      Action.send remote (mkWelcome (s.players ++ [⟨remote, PlayerRole.client⟩]))
        :: (broadcastSends (mapSet remote s.connections)
              (mkPlayerJoined ⟨remote, PlayerRole.client⟩) (some remote)
            ++ [Action.setPlayersAction (s.players ++ [⟨remote, PlayerRole.client⟩])]) := by
    simp [connectionEvent, broadcastMessage, addLog, hrole, hne]
  refine ⟨?_, hmain, ?_, ?_⟩
  · simp [connectionEvent, broadcastMessage, addLog, hrole, hne]
  · intro a ha
    rw [hmain, ← List.cons_append, List.dropLast_concat] at ha
    rcases List.mem_cons.mp ha with h | h
    · exact ⟨remote, _, h⟩
    · obtain ⟨t, ht⟩ := broadcastSends_all_sends _ _ _ a h
      exact ⟨t, _, ht⟩
  · rw [hmain, ← List.cons_append, List.getLast?_concat]

/-- C7 witness: admitting `"c"` into the sample host room. -/
theorem C7_admit_ordering_witness :
    (connectionEvent sampleHostState "t" "c").1.players =
      sampleHostState.players ++ [⟨"c", PlayerRole.client⟩] ∧
    (∀ a ∈ (connectionEvent sampleHostState "t" "c").2.dropLast, ∃ t m, a = Action.send t m) ∧
    (connectionEvent sampleHostState "t" "c").2.getLast? =
      some (Action.setPlayersAction (sampleHostState.players ++ [⟨"c", PlayerRole.client⟩])) :=
  ⟨(C7_admit_ordering sampleHostState "t" "c" rfl (by decide)).1,
   (C7_admit_ordering sampleHostState "t" "c" rfl (by decide)).2.2.1,
   (C7_admit_ordering sampleHostState "t" "c" rfl (by decide)).2.2.2⟩

/-- C1 (amended): room capacity, with the roster count including the
host. From any roster within capacity, an admit step keeps the roster
size at most 6; when an inbound link opens while `players.length >=
MAX_PLAYERS` the host sends `ROOM_FULL` on the candidate link, closes it
after the grace delay, and changes neither roster nor registry — so once
5 clients have joined (roster size 6 with the host), the next join
attempt is rejected and the roster stays at size 6. -/
theorem C1_capacity (s : AppState) (now remote : String)
    (hrole : s.role = some PlayerRole.host) (hcap : s.players.length ≤ MAX_PLAYERS) :
    (connectionEvent s now remote).1.players.length ≤ MAX_PLAYERS ∧
    (s.players.length ≥ MAX_PLAYERS →
      (connectionEvent s now remote).2 =
        [Action.send remote roomFullMessage, Action.closeLink remote] ∧
      (connectionEvent s now remote).1.players = s.players ∧
      (connectionEvent s now remote).1.connections = s.connections) := by
  by_cases hfull : s.players.length ≥ MAX_PLAYERS
  · constructor
    · simpa [connectionEvent, addLog, hrole, hfull] using hcap
    · intro _
      refine ⟨?_, ?_, ?_⟩ <;> simp [connectionEvent, addLog, hrole, hfull]
  · constructor
    · have hlt : s.players.length < MAX_PLAYERS := by omega
      simp only [connectionEvent, broadcastMessage, addLog, hrole, hfull]
      simp
      omega
    · intro h
      exact absurd h hfull

/-- A host whose room is at capacity: the host plus five clients. -/
def fullHostState : AppState :=
  ⟨ConnectionStatus.IN_ROOM, "h", [], some PlayerRole.host,
   [⟨"h", PlayerRole.host⟩, ⟨"c1", PlayerRole.client⟩, ⟨"c2", PlayerRole.client⟩,
    ⟨"c3", PlayerRole.client⟩, ⟨"c4", PlayerRole.client⟩, ⟨"c5", PlayerRole.client⟩],
   "", ["c1", "c2", "c3", "c4", "c5"]⟩

/-- C1 witness: the full room rejects candidate `"c6"` with `ROOM_FULL`
and stays unchanged at roster size 6. -/
theorem C1_capacity_witness :
    (connectionEvent fullHostState "t" "c6").1.players.length ≤ MAX_PLAYERS ∧
    ((connectionEvent fullHostState "t" "c6").2 =
      [Action.send "c6" roomFullMessage, Action.closeLink "c6"] ∧
     (connectionEvent fullHostState "t" "c6").1.players = fullHostState.players ∧
     (connectionEvent fullHostState "t" "c6").1.connections = fullHostState.connections) :=
  ⟨(C1_capacity fullHostState "t" "c6" rfl (by decide)).1,
   (C1_capacity fullHostState "t" "c6" rfl (by decide)).2 (by decide)⟩

/-- C1 counterexample: the claim's scenario "after 6 clients have joined,
the roster stays unchanged at size 7 (6 clients + host)" fails on the
code. From a freshly created room (roster = `[host]`), six successive
join attempts leave the roster at size 6, not 7: the capacity check
`players.length >= MAX_PLAYERS` counts the host, so already the sixth
candidate is rejected with `ROOM_FULL`. -/
theorem C1_counterexample :
    (runConnectionEvents (handleCreateRoom lobbyState "t0") "t1"
      ["c1", "c2", "c3", "c4", "c5", "c6"]).players.length = 6 ∧
    ¬ (runConnectionEvents (handleCreateRoom lobbyState "t0") "t1"
      ["c1", "c2", "c3", "c4", "c5", "c6"]).players.length = 7 ∧
    Action.send "c6" roomFullMessage ∈
      (connectionEvent (runConnectionEvents (handleCreateRoom lobbyState "t0") "t1"
        ["c1", "c2", "c3", "c4", "c5"]) "t1" "c6").2 := by
  refine ⟨?_, ?_, ?_⟩ <;> decide

end WebRTCRoom
